import Mathlib

/-
Shallow embedding of the process-loading and execution core of the
guricerin/mikanos kernel (kernel/terminal.cpp), together with theorems
settling the specification claims about it.

Strings from the C code are modelled as `List Char` holding the bytes
before the terminating NUL (C strings cannot contain NUL).  Machine
memory is modelled as `Nat → Nat` (byte at address).  External
collaborators (frame allocator, page-table primitives, filesystem,
scheduler) are modelled as environment parameters or result streams,
matching the signatures listed in the specification.
-/

set_option autoImplicit false

namespace Mikan

/-- Error kinds used by terminal.cpp (a subset of the kernel's Error::Code
taxonomy: kSuccess, kFull, kInvalidFormat, kInvalidFile, plus allocation
failures surfaced from the paging collaborator). -/
inductive Err where
  | success
  | full
  | invalidFormat
  | invalidFile
  | noEnoughMemory
  deriving DecidableEq, Repr

/-- Observable actions performed by the launcher, recorded as a trace:
page-table allocation (SetupPML4/NewPageMap), top-level entry duplication
(CopyPageMaps), filesystem read (fat::LoadFile), page mapping
(SetupPageMaps for the argument and stack frames), file-descriptor setup,
control transfer (CallApp), the post-exit cleanup steps, and teardown
(CleanPageMaps / FreePML4). -/
inductive Action where
  | newPML4
  | copyPageMaps
  | fsLoadFile
  | mapArgs
  | mapStack
  | pushFd
  | callApp
  | clearFiles
  | clearFileMaps
  | printExit (ret : Int)
  | cleanPageMaps
  | freePML4
  deriving DecidableEq, Repr

/-- C `isspace` on the ASCII characters that can occur in a command line:
space and the control characters 9–13. -/
def isSpaceC (c : Char) : Bool :=
  c == ' ' || (9 ≤ c.toNat && c.toNat ≤ 13)

/-- Fuel-driven worker for the argument tokenizer of `MakeArgVector`
(terminal.cpp:41-64): skip spaces, stop at end of string, otherwise take
the maximal run of non-space characters as one token, null-terminate it
in place (advancing past that byte), and continue.  Fuel is at least
`length + 1` at every external call, so the zero-fuel branch is
unreachable. -/
def tokensGo : Nat → List Char → List (List Char)
  | 0, _ => []
  | fuel + 1, l =>
    match l.dropWhile isSpaceC with
    | [] => []
    | c :: cs =>
      let t := (c :: cs).takeWhile (fun x => !isSpaceC x)
      match (c :: cs).drop t.length with
      | [] => [t]
      | _ :: r => t :: tokensGo fuel r

/-- Whitespace-separated tokens of `first_arg`, as produced by the loop in
`MakeArgVector`. -/
def tokens (l : List Char) : List (List Char) :=
  tokensGo (l.length + 1) l

/-- Result state of `MakeArgVector` (terminal.cpp:17-67): the argument
count, the error, the running index into `argbuf` (equal to the total
packed bytes consumed so far), and the list of performed string writes as
(start index, bytes written) pairs — `strcpy` writes `strlen(s) + 1`
bytes starting at the recorded index. -/
structure ArgRes where
  argc : Nat
  err : Err
  endIndex : Nat
  writes : List (Nat × Nat)
  deriving DecidableEq, Repr

/-- Model of `push_to_argv` (terminal.cpp:21-31): fails with kFull when the
argument slots are exhausted or the current buffer index has reached the
buffer length; otherwise records the pointer, copies the string (length+1
bytes starting at the current index) and advances the index.  Note the
bound test inspects only the start index, not the end of the copy. -/
def pushArg (argvLen argbufLen : Nat) (s : List Char) (st : ArgRes) : ArgRes :=
  if st.argc ≥ argvLen ∨ st.endIndex ≥ argbufLen then
    { st with err := Err.full }
  else
    { argc := st.argc + 1
      err := Err.success
      endIndex := st.endIndex + s.length + 1
      writes := st.writes ++ [(st.endIndex, s.length + 1)] }

/-- The token loop of `MakeArgVector`: push each token in order, stopping
at the first failing push (whose error is returned). -/
def pushList (argvLen argbufLen : Nat) : List (List Char) → ArgRes → ArgRes
  | [], st => st
  | s :: ss, st =>
    let st1 := pushArg argvLen argbufLen s st
    if st1.err = Err.success then pushList argvLen argbufLen ss st1 else st1

/-- Model of `MakeArgVector(command, first_arg, argv, argv_len, argbuf, argbuf_len)`
(terminal.cpp:17-67): push the command word, then — when `first_arg` is
not null — push each whitespace-separated token of it.  `ExecuteFile`
calls this with `argv_len = 32` and `argbuf_len = 4096 - 8*32 = 3840`. -/
def makeArgVector (cmd : List Char) (firstArg : Option (List Char))
    (argvLen argbufLen : Nat) : ArgRes :=
  let st0 : ArgRes := { argc := 0, err := Err.success, endIndex := 0, writes := [] }
  let st1 := pushArg argvLen argbufLen cmd st0
  if st1.err ≠ Err.success then st1
  else
    match firstArg with
    | none => st1
    | some l => pushList argvLen argbufLen (tokens l) st1

/-- Total number of argument tokens pushed by `makeArgVector`: the
command word plus the tokens of `first_arg`. -/
def totalTokens (firstArg : Option (List Char)) : Nat :=
  1 + (match firstArg with
       | none => 0
       | some l => (tokens l).length)

/-- ELF segment type of a loadable segment (elf.h). -/
def PT_LOAD : Nat := 1

/-- ELF type field value for a statically-linked executable (elf.h). -/
def ET_EXEC : Nat := 2

/-- One ELF program header, restricted to the fields terminal.cpp reads. -/
structure Phdr where
  p_type : Nat
  p_offset : Nat
  p_vaddr : Nat
  p_paddr : Nat
  p_filesz : Nat
  p_memsz : Nat
  deriving DecidableEq, Repr

/-- An ELF header together with its program-header table (`e_phnum` is the
length of `phdrs`). -/
structure Ehdr where
  e_type : Nat
  e_entry : Nat
  phdrs : List Phdr
  deriving DecidableEq, Repr

/-- C `memcpy(dst, src, n)` over byte-addressed memory: every byte of
`[dst, dst+n)` takes the value the source range held at call time. -/
def memcpyM (dst src n : Nat) (m : Nat → Nat) : Nat → Nat :=
  fun a => if dst ≤ a ∧ a < dst + n then m (src + (a - dst)) else m a

/-- Result of `CopyLoadSegments` / `LoadElf`: the running high-water mark
(`last_addr`), the error, the final memory, and the list of
`SetupPageMaps` requests performed, as (destination vaddr, 4KiB page
count) pairs (all requested read-only). -/
structure SegResult where
  last : Nat
  err : Err
  mem : Nat → Nat
  maps : List (Nat × Nat)

/-- The loop body of `CopyLoadSegments` (terminal.cpp:91-112), processing
the program headers in order.  `base` is the address at which the raw
image (the ELF header) sits in memory; `mapErr` gives the result of the
`SetupPageMaps` call for the i-th processed segment.  For each LOAD
segment it updates `last_addr` with `p_paddr + p_memsz`, requests
read-only mappings for the pages covering `p_memsz`, copies `p_filesz`
bytes from the image, and then executes
`memcpy(dst + p_filesz, 0, p_memsz - p_filesz)` — a copy whose SOURCE is
address 0, exactly as written in the C. -/
def copySegsGo (base : Nat) (mapErr : Nat → Err) :
    List Phdr → Nat → Nat → (Nat → Nat) → List (Nat × Nat) → SegResult
  | [], _, last, m, maps => ⟨last, Err.success, m, maps⟩
  | ph :: rest, i, last, m, maps =>
    if ph.p_type ≠ PT_LOAD then
      copySegsGo base mapErr rest (i + 1) last m maps
    else
      let last1 := max last (ph.p_paddr + ph.p_memsz)
      let pages := (ph.p_memsz + 4095) / 4096
      if mapErr i ≠ Err.success then
        ⟨last1, mapErr i, m, maps⟩
      else
        let m1 := memcpyM ph.p_vaddr (base + ph.p_offset) ph.p_filesz m
        let m2 := memcpyM (ph.p_vaddr + ph.p_filesz) 0 (ph.p_memsz - ph.p_filesz) m1
        copySegsGo base mapErr rest (i + 1) last1 m2 (maps ++ [(ph.p_vaddr, pages)])

/-- Model of `CopyLoadSegments(ehdr)` (terminal.cpp:88-114). -/
def copyLoadSegments (base : Nat) (mapErr : Nat → Err) (e : Ehdr) (m : Nat → Nat) : SegResult :=
  copySegsGo base mapErr e.phdrs 0 0 m []

/-- Model of `GetFirstLoadAddress` (terminal.cpp:73-82): the `p_vaddr` of the first
LOAD segment, or 0 when there is none. -/
def firstLoadAddr : List Phdr → Nat
  | [] => 0
  | ph :: rest => if ph.p_type ≠ PT_LOAD then firstLoadAddr rest else ph.p_vaddr

/-- The function `GetFirstLoadAddress(ehdr)` applied to the header's table. -/
def getFirstLoadAddress (e : Ehdr) : Nat :=
  firstLoadAddr e.phdrs

/-- Base of the canonical upper half of the address space, the region
applications are loaded into (terminal.cpp:126, 530). -/
def kCanonicalBound : Nat := 0xffff800000000000

/-- Model of `LoadElf(ehdr)` (terminal.cpp:118-131): reject non-ET_EXEC images and
images whose first LOAD vaddr is below the canonical boundary with
kInvalidFormat, before touching memory; otherwise copy the segments. -/
def loadElf (base : Nat) (mapErr : Nat → Err) (e : Ehdr) (m : Nat → Nat) : SegResult :=
  if e.e_type ≠ ET_EXEC then ⟨0, Err.invalidFormat, m, []⟩
  else if getFirstLoadAddress e < kCanonicalBound then ⟨0, Err.invalidFormat, m, []⟩
  else copyLoadSegments base mapErr e m

/-- The entry-copy step of `SetupPML4` (terminal.cpp:142):
`memcpy(pml4, current_pml4, 256 * sizeof(uint64_t))` copies the FIRST 256
top-level entries from the currently active table into the fresh table;
the remaining entries keep the fresh table's contents.  Tables are
modelled as maps from top-level index to entry value. -/
def setupPML4Copy (current fresh : Nat → Nat) : Nat → Nat :=
  fun i => if i < 256 then current i else fresh i

/-- Top-level (PML4) index of a 4-level linear address: bits 39–47. -/
def pml4Index (addr : Nat) : Nat :=
  addr / 2 ^ 39 % 512

/-- Structure `AppLoadInfo` (terminal.hpp): the cached program layout — high-water
mark of the mapped image, entry point, and the page-table root that owns
the mappings.  Page-table roots are modelled by identifiers. -/
structure AppLoadInfo where
  vaddr_end : Nat
  entry : Nat
  pml4 : Nat
  deriving DecidableEq, Repr

/-- A file image as handed to `LoadApp`: whether its first bytes are the
ELF magic, and the parsed header.  The file identity used as cache key
(the `fat::DirectoryEntry*`) is modelled as a `Nat`. -/
structure FileImage where
  magic_ok : Bool
  ehdr : Ehdr
  deriving DecidableEq, Repr

/-- Lookup in `g_app_loads` (a `std::map` keyed by directory-entry
pointer), modelled as an association list. -/
def lookupCache : List (Nat × AppLoadInfo) → Nat → Option AppLoadInfo
  | [], _ => none
  | (k, v) :: rest, fid => if k = fid then some v else lookupCache rest fid

/-- Model of `NewPageMap` inside `SetupPML4` (terminal.cpp:134-148),
consuming the head of a stream of allocation results: `some id` is a
fresh table, `none` (or an exhausted stream) an allocation failure
(kNoEnoughMemory).  The subsequent entry copy is `setupPML4Copy` and the
CR3 switch is external state. -/
def setupPML4M : List (Option Nat) → Option Nat × List (Option Nat)
  | [] => (none, [])
  | none :: rest => (none, rest)
  | some id :: rest => (some id, rest)

/-- Result of `LoadApp`: the returned `AppLoadInfo` and error, plus the
updated cache, the remaining allocation stream, the final memory, and the
trace of performed actions. -/
structure LoadAppRes where
  info : AppLoadInfo
  err : Err
  cache : List (Nat × AppLoadInfo)
  allocs : List (Option Nat)
  mem : Nat → Nat
  trace : List Action

/-- Model of `LoadApp(file_entry, task)` (terminal.cpp:188-232).  Build a fresh
address space; on a cache hit for the file identity, duplicate the app
region's top-level entries (`CopyPageMaps(temp, cached, 4, 256)`, whose
error is the environment value `copyErr`) and return the cached layout
with the fresh root substituted; on a miss, read the file from the
filesystem, validate the magic, run `LoadElf`, record the layout in the
cache, build a second fresh address space and duplicate the entries into
it. -/
def loadApp (fid : Nat) (file : FileImage) (base : Nat) (mapErr : Nat → Err) (copyErr : Err)
    (cache : List (Nat × AppLoadInfo)) (allocs : List (Option Nat)) (m : Nat → Nat) :
    LoadAppRes :=
  match setupPML4M allocs with
  | (none, al) => ⟨⟨0, 0, 0⟩, Err.noEnoughMemory, cache, al, m, []⟩
  | (some temp, al) =>
    match lookupCache cache fid with
    | some info0 =>
      ⟨⟨info0.vaddr_end, info0.entry, temp⟩, copyErr, cache, al, m,
        [Action.newPML4, Action.copyPageMaps]⟩
    | none =>
      if !file.magic_ok then
        ⟨⟨0, 0, 0⟩, Err.invalidFile, cache, al, m, [Action.newPML4, Action.fsLoadFile]⟩
      else
        let r := loadElf base mapErr file.ehdr m
        if r.err ≠ Err.success then
          ⟨⟨0, 0, 0⟩, r.err, cache, al, r.mem, [Action.newPML4, Action.fsLoadFile]⟩
        else
          let app0 : AppLoadInfo := ⟨r.last, file.ehdr.e_entry, temp⟩
          let cache1 := (fid, app0) :: cache
          match setupPML4M al with
          | (none, al2) =>
            ⟨app0, Err.noEnoughMemory, cache1, al2, r.mem,
              [Action.newPML4, Action.fsLoadFile, Action.newPML4]⟩
          | (some p2, al2) =>
            ⟨⟨r.last, file.ehdr.e_entry, p2⟩, copyErr, cache1, al2, r.mem,
              [Action.newPML4, Action.fsLoadFile, Action.newPML4, Action.copyPageMaps]⟩

/-- Environment of one `ExecuteFile` run: the launched file and its cache
identity, the collaborator results (allocation stream, per-segment and
per-frame mapping errors, `CopyPageMaps`, `CleanPageMaps`, `FreePML4`),
the initial cache and memory, and the child's exit code. -/
structure ExecEnv where
  fid : Nat
  file : FileImage
  base : Nat
  mapErr : Nat → Err
  copyErr : Err
  cache : List (Nat × AppLoadInfo)
  allocs : List (Option Nat)
  mem : Nat → Nat
  argsMapErr : Err
  stackMapErr : Err
  callRet : Int
  cleanErr : Err
  freeErr : Err

/-- Model of `Terminal::ExecuteFile(file_entry, command, first_arg)`
(terminal.cpp:462-536), at the granularity of its collaborator calls:
LoadApp; map the argument frame at 0xfffffffffffff000; build the argument
vector with `argv_len = 32`, `argbuf_len = 4096 - 8*32`; map the stack
frame; install three terminal file descriptors; transfer control
(CallApp); after the child returns, clear the task's files and file maps,
print `app exited. ret = <code>`, release the app mappings
(CleanPageMaps from 0xffff800000000000) and free the address space
(FreePML4).  Every failing step returns its error immediately. -/
def executeFile (cmd : List Char) (firstArg : Option (List Char)) (env : ExecEnv) :
    Err × List Action :=
  let r := loadApp env.fid env.file env.base env.mapErr env.copyErr env.cache env.allocs env.mem
  if r.err ≠ Err.success then (r.err, r.trace)
  else if env.argsMapErr ≠ Err.success then (env.argsMapErr, r.trace)
  else
    let tr1 := r.trace ++ [Action.mapArgs]
    let a := makeArgVector cmd firstArg 32 3840
    if a.err ≠ Err.success then (a.err, tr1)
    else if env.stackMapErr ≠ Err.success then (env.stackMapErr, tr1)
    else
      let tr2 := tr1 ++ [Action.mapStack, Action.pushFd, Action.pushFd, Action.pushFd,
        Action.callApp]
      let tr3 := tr2 ++ [Action.clearFiles, Action.clearFileMaps,
        Action.printExit env.callRet, Action.cleanPageMaps]
      if env.cleanErr ≠ Err.success then (env.cleanErr, tr3)
      else (env.freeErr, tr3 ++ [Action.freePML4])

/-- The history-relevant part of the terminal state: the command-history
deque (front = most recent; created by `cmd_history_.resize(8)` as eight
empty strings, terminal.cpp:253), the navigation index
`cmd_history_index_`, and the current line buffer. -/
structure TermHist where
  history : List (List Char)
  index : Int
  linebuf : List Char
  deriving DecidableEq, Repr

/-- Terminal history state right after construction: eight empty entries,
no navigation in progress, empty line. -/
def initTermHist : TermHist :=
  { history := [[], [], [], [], [], [], [], []], index := -1, linebuf := [] }

/-- The Enter branch of `Terminal::InputKey` (terminal.cpp:277-293),
restricted to the history state: when the line is non-empty, drop the
oldest history entry and push the line at the front; reset the line
buffer index and the navigation index. -/
def onEnter (st : TermHist) : TermHist :=
  let hist := if 0 < st.linebuf.length then st.linebuf :: st.history.dropLast else st.history
  { history := hist, index := -1, linebuf := [] }

/-- Typing a command and pressing Enter: the line buffer holds the typed
characters when Enter is handled. -/
def enterCmd (c : List Char) (st : TermHist) : TermHist :=
  onEnter { st with linebuf := c }

/-- Model of `Terminal::HistoryUpDown(direction)` (terminal.cpp:593-617),
restricted to the history state: direction -1 (toward the newest) steps
the index down while it is ≥ 0; direction 1 (toward the past) steps it up
while `index + 1 < cmd_history_.size()`; the line buffer is then replaced
by the indexed history entry, or by the empty string when the index is
negative. -/
def historyUpDown (d : Int) (st : TermHist) : TermHist :=
  let idx :=
    if d = -1 ∧ 0 ≤ st.index then st.index - 1
    else if d = 1 ∧ st.index + 1 < (st.history.length : Int) then st.index + 1
    else st.index
  let h := if 0 ≤ idx then st.history.getD idx.toNat [] else []
  { history := st.history, index := idx, linebuf := h }

/-- Left-control and right-control bits of the USB keyboard modifier
byte.  Modelled from the spec: the masks live in keyboard.hpp, which is
not among the sources; the spec only requires that they test the control
modifier. -/
def kLControlBitMask : Nat := 0x01

/-- Right-control modifier bit (see `kLControlBitMask`). -/
def kRControlBitMask : Nat := 0x10

/-- C `toupper` on ASCII. -/
def toUpperC (c : Char) : Char :=
  if 'a' ≤ c ∧ c ≤ 'z' then Char.ofNat (c.toNat - 32) else c

/-- A keyboard message as read from the task's message queue
(`Message::kKeyPush` with its keyboard payload). -/
structure KeyMsg where
  isKeyPush : Bool
  press : Bool
  modifier : Nat
  keycode : Nat
  ascii : Char
  deriving DecidableEq, Repr

/-- Result of `TerminalFileDescriptor::Read`: the returned byte count,
the byte stored into the caller's buffer (if any), and the strings echoed
to the terminal while the call ran. -/
structure ReadRes where
  bytes : Nat
  buf : Option Char
  echoes : List (List Char)
  deriving DecidableEq, Repr

/-- Model of `TerminalFileDescriptor::Read` (terminal.cpp:700-735) over the
sequence of messages delivered to the task, in order.  Non-key and
release messages are skipped.  A press with a control modifier is echoed
as `^X` (X = uppercased ascii); if its keycode is 7 (the D key) the call
returns 0 (EOT), otherwise the loop continues.  Any other press stores
its ascii byte in the buffer, echoes it, and returns 1.  An exhausted
message list models a call that is still blocked (`none`). -/
def tfdRead : List KeyMsg → Option ReadRes
  | [] => none
  | msg :: ms =>
    if !(msg.isKeyPush && msg.press) then tfdRead ms
    else if msg.modifier &&& (kLControlBitMask ||| kRControlBitMask) ≠ 0 then
      let echo := ['^', toUpperC msg.ascii]
      if msg.keycode = 7 then some { bytes := 0, buf := none, echoes := [echo] }
      else
        match tfdRead ms with
        | none => none
        | some r => some { r with echoes := echo :: r.echoes }
    else some { bytes := 1, buf := some msg.ascii, echoes := [[msg.ascii]] }

/-- Model of `TerminalFileDescriptor::Write(buf, len)` (terminal.cpp:737-740):
print `len` bytes of the buffer and return `len`. -/
def tfdWrite (buf : List Char) (len : Nat) : List Char × Nat :=
  (buf.take len, len)

/-- Model of `TerminalFileDescriptor::Load` (terminal.cpp:742-744): unsupported,
always 0. -/
def tfdLoad (len offs : Nat) : Nat :=
  0

/-- Splitting of the line buffer done at the top of
`Terminal::ExecuteLine` (terminal.cpp:343-349): `strchr(linebuf, ' ')`
finds the first space; if present it is overwritten with NUL, making
`command` the text before it and `first_arg` the text after it; if absent
`first_arg` stays the null pointer (`none`). -/
def parseLine (l : List Char) : List Char × Option (List Char) :=
  let cmd := l.takeWhile (fun c => c ≠ ' ')
  if cmd.length = l.length then (l, none) else (cmd, some (l.drop (cmd.length + 1)))

/-- Outcome of dispatching one line, at the granularity claim C10 needs:
which branch ran and whether the dispatcher itself dereferenced a null
`first_arg`. -/
inductive LineRes where
  | printed
  | nullDeref
  | lsRoot
  | lsPath (p : List Char)
  | catLookup (p : Option (List Char))
  | notermSpawn (p : Option (List Char))
  | execProg (name : List Char) (arg : Option (List Char))
  | nothing
  deriving DecidableEq, Repr

/-- The dispatcher of `Terminal::ExecuteLine` (terminal.cpp:342-460).
`echo` tests `first_arg` for null before printing it; `clear`, `lspci`
and `memstat` never touch it; `ls` evaluates `first_arg[0]` with no null
test — with a null `first_arg` that read is a null-pointer dereference,
modelled as `LineRes.nullDeref`; `cat` and `noterm` pass the (possibly
null) pointer to external collaborators without dereferencing it here;
any other non-empty word is looked up as an external program. -/
def executeLineModel (l : List Char) : LineRes :=
  let pr := parseLine l
  let command := pr.1
  let firstArg := pr.2
  if command = ['e', 'c', 'h', 'o'] then LineRes.printed
  else if command = ['c', 'l', 'e', 'a', 'r'] then LineRes.printed
  else if command = ['l', 's', 'p', 'c', 'i'] then LineRes.printed
  else if command = ['l', 's'] then
    match firstArg with
    | none => LineRes.nullDeref
    | some a => if a = [] then LineRes.lsRoot else LineRes.lsPath a
  else if command = ['c', 'a', 't'] then LineRes.catLookup firstArg
  else if command = ['n', 'o', 't', 'e', 'r', 'm'] then LineRes.notermSpawn firstArg
  else if command = ['m', 'e', 'm', 's', 't', 'a', 't'] then LineRes.printed
  else if command ≠ [] then LineRes.execProg command firstArg
  else LineRes.nothing

/-- C10: for the input line consisting of exactly `ls`, the dispatcher
reaches the ls branch with a null `first_arg` and evaluates
`first_arg[0]`: in the total embedding the branch yields the null
dereference marker, while the `echo` branch (which tests `first_arg`
before use) does not. -/
theorem c10_ls_null_deref :
    parseLine ['l', 's'] = (['l', 's'], none) ∧
    executeLineModel ['l', 's'] = LineRes.nullDeref ∧
    executeLineModel ['e', 'c', 'h', 'o'] = LineRes.printed := by
  decide

/-- C6 counterexample: the upper canonical half (addresses from
0xffff800000000000 up) is covered by top-level entries with index ≥ 256,
and `SetupPML4` does not copy those entries from the active table — with
an active table whose entry 256 is 5 and a fresh table of zeroes, the
created table disagrees with the active one at the entry covering the
upper half, refuting "the entries covering the upper half are copied at
creation". -/
theorem c6_setupPML4_counterexample :
    pml4Index kCanonicalBound = 256 ∧
    setupPML4Copy (fun i => if i = 256 then 5 else 0) (fun _ => 0) 256 = 0 ∧
    (fun i => if i = 256 then 5 else 0) 256 = 5 := by
  refine ⟨by decide, by decide, by decide⟩

/-- C6 (amended): `SetupPML4` copies the first 256 top-level entries —
the kernel-shared LOWER half — verbatim from the active table, so those
entries are identical across all created address spaces; the upper half
(index ≥ 256), which contains every address the launcher maps for an app
(the image region at 0xffff800000000000, the stack frame at
0xffffffffffffe000 and the argument frame at 0xfffffffffffff000), is the
task-private half and is not copied at creation. -/
theorem c6_setupPML4_amended (current fresh : Nat → Nat) (i : Nat) (h : i < 256) :
    setupPML4Copy current fresh i = current i ∧
    256 ≤ pml4Index kCanonicalBound ∧
    256 ≤ pml4Index 0xffffffffffffe000 ∧
    256 ≤ pml4Index 0xfffffffffffff000 := by
  refine ⟨?_, by decide, by decide, by decide⟩
  simp [setupPML4Copy, h]

/-- C6 witness: the amended theorem applied at entry 0 of concrete
tables. -/
theorem c6_setupPML4_witness :
    setupPML4Copy (fun _ => 3) (fun _ => 9) 0 = (fun _ => (3 : Nat)) 0 ∧
    256 ≤ pml4Index kCanonicalBound ∧
    256 ≤ pml4Index 0xffffffffffffe000 ∧
    256 ≤ pml4Index 0xfffffffffffff000 :=
  c6_setupPML4_amended (fun _ => 3) (fun _ => 9) 0 (by decide)

/-- C4: for every image whose ELF type is not ET_EXEC or whose first
loadable segment's virtual address is below the canonical boundary,
`LoadElf` fails with kInvalidFormat, leaves memory untouched and installs
no page mapping. -/
theorem c4_loadElf_invalidFormat (base : Nat) (mapErr : Nat → Err) (e : Ehdr) (m : Nat → Nat)
    (h : e.e_type ≠ ET_EXEC ∨ getFirstLoadAddress e < kCanonicalBound) :
    (loadElf base mapErr e m).err = Err.invalidFormat ∧
    (loadElf base mapErr e m).mem = m ∧
    (loadElf base mapErr e m).maps = [] := by
  unfold loadElf
  split_ifs with h1 h2
  · exact ⟨rfl, rfl, rfl⟩
  · exact ⟨rfl, rfl, rfl⟩
  · rcases h with h | h
    · exact absurd h h1
    · exact absurd h h2

/-- C4 witness: a relocatable image (type 1) is rejected with
kInvalidFormat and no effect. -/
theorem c4_loadElf_invalidFormat_witness :
    (loadElf 0 (fun _ => Err.success) ⟨1, 0, []⟩ (fun _ => 0)).err = Err.invalidFormat ∧
    (loadElf 0 (fun _ => Err.success) ⟨1, 0, []⟩ (fun _ => 0)).mem = (fun _ => 0) ∧
    (loadElf 0 (fun _ => Err.success) ⟨1, 0, []⟩ (fun _ => 0)).maps = [] :=
  c4_loadElf_invalidFormat 0 (fun _ => Err.success) ⟨1, 0, []⟩ (fun _ => 0) (Or.inl (by decide))

/-- C1 (code bug): `CopyLoadSegments` implements the "zero-fill the
memsz − filesz tail" step as `memcpy(dst + filesz, 0, memsz - filesz)`
(terminal.cpp:111), a copy from address 0, not a zero-fill.  For an
accepted executable with one loadable segment of file_size 0 and
memory_size 1, when memory holds 42 at address 0, the loader succeeds and
the segment's tail byte at the destination is 42, not 0. -/
theorem c1_copyLoadSegments_tail_not_zeroed :
    (loadElf 0x30000000 (fun _ => Err.success)
        ⟨2, 0xffff800000000000,
          [⟨1, 0x40, 0xffff800000000000, 0xffff800000000000, 0, 1⟩]⟩
        (fun a => if a = 0 then 42 else 0)).err = Err.success ∧
    (loadElf 0x30000000 (fun _ => Err.success)
        ⟨2, 0xffff800000000000,
          [⟨1, 0x40, 0xffff800000000000, 0xffff800000000000, 0, 1⟩]⟩
        (fun a => if a = 0 then 42 else 0)).mem 0xffff800000000000 = 42 := by
  constructor
  · decide
  · decide

/-- C7 counterexample: after entering `a`, `b`, `c`, three presses of the
history-back key restore `c`, `b`, `a`, but a fourth press is NOT a
no-op — the ring was pre-filled with eight empty entries by
`cmd_history_.resize(8)` and the clamp tests the ring's size, so the
fourth press advances the index to 3 and replaces the line with an empty
entry. -/
theorem c7_history_counterexample :
    (historyUpDown 1 (historyUpDown 1 (historyUpDown 1
        (enterCmd ['c'] (enterCmd ['b'] (enterCmd ['a'] initTermHist)))))).linebuf = ['a'] ∧
    (historyUpDown 1 (historyUpDown 1 (historyUpDown 1 (historyUpDown 1
        (enterCmd ['c'] (enterCmd ['b'] (enterCmd ['a'] initTermHist))))))).linebuf = [] ∧
    historyUpDown 1 (historyUpDown 1 (historyUpDown 1 (historyUpDown 1
        (enterCmd ['c'] (enterCmd ['b'] (enterCmd ['a'] initTermHist)))))) ≠
      historyUpDown 1 (historyUpDown 1 (historyUpDown 1
        (enterCmd ['c'] (enterCmd ['b'] (enterCmd ['a'] initTermHist))))) := by
  refine ⟨by decide, by decide, by decide⟩

/-- C7 (amended): after entering three non-empty commands, the first
three presses of history-back restore them most-recent-first; the fourth
press still moves — navigation is clamped at the ring's capacity of 8
pre-filled entries (and at −1 at the recent end), not at the number of
entered commands, so it replaces the line with an empty stored entry. -/
theorem c7_history_amended (a b c : List Char)
    (ha : 0 < a.length) (hb : 0 < b.length) (hc : 0 < c.length) :
    (historyUpDown 1
        (enterCmd c (enterCmd b (enterCmd a initTermHist)))).linebuf = c ∧
    (historyUpDown 1 (historyUpDown 1
        (enterCmd c (enterCmd b (enterCmd a initTermHist))))).linebuf = b ∧
    (historyUpDown 1 (historyUpDown 1 (historyUpDown 1
        (enterCmd c (enterCmd b (enterCmd a initTermHist)))))).linebuf = a ∧
    (historyUpDown 1 (historyUpDown 1 (historyUpDown 1 (historyUpDown 1
        (enterCmd c (enterCmd b (enterCmd a initTermHist))))))).linebuf = [] ∧
    (historyUpDown 1 (historyUpDown 1 (historyUpDown 1 (historyUpDown 1
        (enterCmd c (enterCmd b (enterCmd a initTermHist))))))).index = 3 := by
  have h3 : enterCmd c (enterCmd b (enterCmd a initTermHist)) =
      { history := [c, b, a, [], [], [], [], []], index := -1, linebuf := [] } := by
    simp [enterCmd, onEnter, initTermHist, ha, hb, hc, List.dropLast]
  rw [h3]
  have u1 : historyUpDown 1
      ({ history := [c, b, a, [], [], [], [], []], index := -1, linebuf := [] } : TermHist) =
      { history := [c, b, a, [], [], [], [], []], index := 0, linebuf := c } := by
    simp [historyUpDown]
  rw [u1]
  have u2 : historyUpDown 1
      ({ history := [c, b, a, [], [], [], [], []], index := 0, linebuf := c } : TermHist) =
      { history := [c, b, a, [], [], [], [], []], index := 1, linebuf := b } := by
    simp [historyUpDown]
  rw [u2]
  have u3 : historyUpDown 1
      ({ history := [c, b, a, [], [], [], [], []], index := 1, linebuf := b } : TermHist) =
      { history := [c, b, a, [], [], [], [], []], index := 2, linebuf := a } := by
    simp [historyUpDown]
  rw [u3]
  have u4 : historyUpDown 1
      ({ history := [c, b, a, [], [], [], [], []], index := 2, linebuf := a } : TermHist) =
      { history := [c, b, a, [], [], [], [], []], index := 3, linebuf := [] } := by
    simp [historyUpDown]
  rw [u4]
  exact ⟨rfl, rfl, rfl, rfl, rfl⟩

/-- C7 witness: the amended theorem at the concrete commands `x`, `y`,
`z`. -/
theorem c7_history_witness :
    (historyUpDown 1
        (enterCmd ['z'] (enterCmd ['y'] (enterCmd ['x'] initTermHist)))).linebuf = ['z'] ∧
    (historyUpDown 1 (historyUpDown 1
        (enterCmd ['z'] (enterCmd ['y'] (enterCmd ['x'] initTermHist))))).linebuf = ['y'] ∧
    (historyUpDown 1 (historyUpDown 1 (historyUpDown 1
        (enterCmd ['z'] (enterCmd ['y'] (enterCmd ['x'] initTermHist)))))).linebuf = ['x'] ∧
    (historyUpDown 1 (historyUpDown 1 (historyUpDown 1 (historyUpDown 1
        (enterCmd ['z'] (enterCmd ['y'] (enterCmd ['x'] initTermHist))))))).linebuf = [] ∧
    (historyUpDown 1 (historyUpDown 1 (historyUpDown 1 (historyUpDown 1
        (enterCmd ['z'] (enterCmd ['y'] (enterCmd ['x'] initTermHist))))))).index = 3 :=
  c7_history_amended ['x'] ['y'] ['z'] (by decide) (by decide) (by decide)

/-- C9: `TerminalFileDescriptor::Read` returns 0 bytes for a control
press with keycode 7 (D); echoes `^X` and keeps looping for any other
control press; echoes and returns exactly one byte for a plain printable
press; `Write` always returns its `len` argument; `Load` always returns
zero. -/
theorem c9_terminal_descriptor_ops
    (m1 : KeyMsg) (ms1 : List KeyMsg) (m2 : KeyMsg) (ms2 : List KeyMsg)
    (m3 : KeyMsg) (ms3 : List KeyMsg) (s : List Char) (n offs : Nat)
    (h1a : m1.isKeyPush = true) (h1b : m1.press = true)
    (h1c : m1.modifier &&& (kLControlBitMask ||| kRControlBitMask) ≠ 0)
    (h1d : m1.keycode = 7)
    (h2a : m2.isKeyPush = true) (h2b : m2.press = true)
    (h2c : m2.modifier &&& (kLControlBitMask ||| kRControlBitMask) ≠ 0)
    (h2d : m2.keycode ≠ 7)
    (h3a : m3.isKeyPush = true) (h3b : m3.press = true)
    (h3c : m3.modifier &&& (kLControlBitMask ||| kRControlBitMask) = 0)
    (h3d : 0x20 ≤ m3.ascii.toNat) (h3e : m3.ascii.toNat ≤ 0x7e) :
    tfdRead (m1 :: ms1) = some ⟨0, none, [['^', toUpperC m1.ascii]]⟩ ∧
    tfdRead (m2 :: ms2) =
      (tfdRead ms2).map (fun r => { r with echoes := ['^', toUpperC m2.ascii] :: r.echoes }) ∧
    tfdRead (m3 :: ms3) = some ⟨1, some m3.ascii, [[m3.ascii]]⟩ ∧
    (tfdWrite s n).2 = n ∧
    tfdLoad n offs = 0 := by
  refine ⟨?_, ?_, ?_, rfl, rfl⟩
  · simp [tfdRead, h1a, h1b, h1c, h1d]
  · rw [tfdRead]
    simp only [h2a, h2b, Bool.and_self, Bool.not_true, Bool.false_eq_true, if_false,
      h2c, if_true, h2d, if_neg h2d]
    cases tfdRead ms2 <;> simp [h2c]
  · simp [tfdRead, h3a, h3b, h3c]

/-- C9 witness: the theorem at concrete messages — a Ctrl-D press, a
Ctrl-E press followed by a plain `x` press, and a plain `x` press. -/
theorem c9_terminal_descriptor_ops_witness :
    tfdRead [⟨true, true, 1, 7, 'd'⟩] = some ⟨0, none, [['^', toUpperC 'd']]⟩ ∧
    tfdRead [⟨true, true, 1, 8, 'e'⟩, ⟨true, true, 0, 4, 'x'⟩] =
      (tfdRead [⟨true, true, 0, 4, 'x'⟩]).map
        (fun r => { r with echoes := ['^', toUpperC 'e'] :: r.echoes }) ∧
    tfdRead [⟨true, true, 0, 4, 'x'⟩] = some ⟨1, some 'x', [['x']]⟩ ∧
    (tfdWrite ['h', 'i'] 2).2 = 2 ∧
    tfdLoad 2 0 = 0 :=
  c9_terminal_descriptor_ops ⟨true, true, 1, 7, 'd'⟩ [] ⟨true, true, 1, 8, 'e'⟩
    [⟨true, true, 0, 4, 'x'⟩] ⟨true, true, 0, 4, 'x'⟩ [] ['h', 'i'] 2 0
    (by decide) (by decide) (by decide) (by decide)
    (by decide) (by decide) (by decide) (by decide)
    (by decide) (by decide) (by decide) (by decide) (by decide)

theorem pushArg_full (al bl : Nat) (s : List Char) (st : ArgRes)
    (hc : st.argc ≥ al ∨ st.endIndex ≥ bl) :
    pushArg al bl s st = { st with err := Err.full } := by
  simp [pushArg, hc]

theorem pushArg_ok (al bl : Nat) (s : List Char) (st : ArgRes)
    (hc : ¬(st.argc ≥ al ∨ st.endIndex ≥ bl)) :
    pushArg al bl s st =
      ⟨st.argc + 1, Err.success, st.endIndex + s.length + 1,
        st.writes ++ [(st.endIndex, s.length + 1)]⟩ := by
  simp only [pushArg, if_neg hc]

/-- Every failing push returns kFull, so a token list that must overrun
the 32 argv slots ends in kFull. -/
theorem pushList_err_full (al bl : Nat) (ts : List (List Char)) : ∀ st : ArgRes,
    st.err = Err.success → st.argc ≤ al → al < st.argc + ts.length →
    (pushList al bl ts st).err = Err.full := by
  induction ts with
  | nil =>
    intro st _ hle hlt
    simp only [List.length_nil, Nat.add_zero] at hlt
    exact absurd hlt (by omega)
  | cons s ss ih =>
    intro st hs hle hlt
    by_cases hc : st.argc ≥ al ∨ st.endIndex ≥ bl
    · simp [pushList, pushArg_full al bl s st hc]
    · rw [pushList, pushArg_ok al bl s st hc]
      push_neg at hc
      simp only [if_pos rfl]
      refine ih _ rfl ?_ ?_
      · dsimp only
        omega
      · dsimp only
        simp only [List.length_cons] at hlt
        omega

/-- Every recorded write starts below the buffer bound: the bound test in
`push_to_argv` rejects a push whose START index has reached the bound —
it says nothing about where the copied bytes end. -/
theorem pushList_writes_low (al bl : Nat) (ts : List (List Char)) : ∀ st : ArgRes,
    (∀ w ∈ st.writes, w.1 < bl) → ∀ w ∈ (pushList al bl ts st).writes, w.1 < bl := by
  induction ts with
  | nil => intro st hw; simpa [pushList] using hw
  | cons s ss ih =>
    intro st hw
    by_cases hc : st.argc ≥ al ∨ st.endIndex ≥ bl
    · simpa [pushList, pushArg_full al bl s st hc] using hw
    · rw [pushList, pushArg_ok al bl s st hc]
      push_neg at hc
      simp only [if_pos rfl]
      apply ih
      intro w hw2
      simp only [List.mem_append, List.mem_singleton] at hw2
      rcases hw2 with hw2 | hw2
      · exact hw w hw2
      · rw [hw2]; exact hc.2

/-- A non-empty string without whitespace is one single token. -/
theorem tokens_no_space (l : List Char) (hne : l ≠ [])
    (hs : ∀ c ∈ l, isSpaceC c = false) : tokens l = [l] := by
  cases l with
  | nil => exact absurd rfl hne
  | cons c cs =>
    have hc : isSpaceC c = false := hs c (by simp)
    have hd : (c :: cs).dropWhile isSpaceC = c :: cs := by
      rw [List.dropWhile_cons, hc]
      simp
    have ht : (c :: cs).takeWhile (fun x => !isSpaceC x) = c :: cs := by
      rw [List.takeWhile_eq_self_iff]
      intro a ha
      simp [hs a ha]
    unfold tokens
    rw [show (c :: cs).length + 1 = cs.length + 1 + 1 from by simp]
    rw [tokensGo, hd]
    simp only [ht, List.drop_length]

/-- C2 (amended): with `argv_len = 32` and `argbuf_len = 3840`, a token
count above 32 does make `MakeArgVector` fail with kFull, and every
argument write STARTS below the 3840-byte bound — but the bound check
inspects only the start index, so an argument's bytes may extend past the
bound (see the counterexample, where the call even succeeds with a packed
size above the bound). -/
theorem c2_makeArgVector_bounds_amended (cmd : List Char) (fa : Option (List Char)) :
    (32 < totalTokens fa → (makeArgVector cmd fa 32 3840).err = Err.full) ∧
    (∀ w ∈ (makeArgVector cmd fa 32 3840).writes, w.1 < 3840) := by
  have h1 : pushArg 32 3840 cmd ⟨0, Err.success, 0, []⟩ =
      ⟨1, Err.success, cmd.length + 1, [(0, cmd.length + 1)]⟩ := by
    rw [pushArg_ok 32 3840 cmd ⟨0, Err.success, 0, []⟩ (by simp)]
    simp
  unfold makeArgVector
  dsimp only
  rw [h1]
  simp only [ne_eq, not_true_eq_false, if_false, reduceIte]
  cases fa with
  | none =>
    constructor
    · intro h
      simp [totalTokens] at h
    · intro w hw
      simp only [List.mem_singleton] at hw
      rw [hw]
      omega
  | some l =>
    constructor
    · intro h
      simp only [totalTokens] at h
      refine pushList_err_full 32 3840 (tokens l) _ rfl ?_ ?_
      · dsimp only
        omega
      · dsimp only
        omega
    · apply pushList_writes_low
      intro w hw
      simp only [List.mem_singleton] at hw
      rw [hw]
      omega

/-- C2 counterexample: one 3839-character argument after a 1-character
command has packed size 2 + 3840 = 3842 > 3840 = 4096 − 8·32, yet
`MakeArgVector(32, 3840)` SUCCEEDS (no kFull), and its second write
starts at index 2 and spans 3840 bytes, extending to 3842 — past the
bound: the claimed "fails with Full and never writes beyond the bound" is
false. -/
theorem c2_makeArgVector_overflow_counterexample :
    makeArgVector ['c'] (some (List.replicate 3839 'a')) 32 3840 =
      ⟨2, Err.success, 3842, [(0, 2), (2, 3840)]⟩ ∧ 3840 < 3842 := by
  have hlen : (List.replicate 3839 'a').length = 3839 := by
    simp only [List.length_replicate]
  have htok : tokens (List.replicate 3839 'a') = [List.replicate 3839 'a'] := by
    apply tokens_no_space
    · intro hnil
      rw [hnil] at hlen
      exact absurd hlen (by decide)
    · intro c' hc'
      rw [List.eq_of_mem_replicate hc']
      decide
  have h1 : pushArg 32 3840 ['c'] ⟨0, Err.success, 0, []⟩ =
      ⟨1, Err.success, 2, [(0, 2)]⟩ := by
    rw [pushArg_ok 32 3840 ['c'] ⟨0, Err.success, 0, []⟩ (by decide)]
    rfl
  have h2 : pushArg 32 3840 (List.replicate 3839 'a') ⟨1, Err.success, 2, [(0, 2)]⟩ =
      ⟨2, Err.success, 3842, [(0, 2), (2, 3840)]⟩ := by
    rw [pushArg_ok 32 3840 (List.replicate 3839 'a') ⟨1, Err.success, 2, [(0, 2)]⟩
      (by decide)]
    rw [hlen]
    rfl
  refine ⟨?_, by decide⟩
  unfold makeArgVector
  dsimp only
  rw [h1]
  simp only [ne_eq, not_true_eq_false, if_false, reduceIte]
  rw [htok]
  simp only [pushList, h2]
  simp

/-- C2 witness: 34 tokens (a one-character command plus 33 arguments)
exceed the 32-slot bound and the call fails with kFull. -/
theorem c2_makeArgVector_bounds_witness :
    (makeArgVector ['c'] (some ((List.replicate 33 ['a', ' ']).flatten)) 32 3840).err =
      Err.full :=
  (c2_makeArgVector_bounds_amended ['c'] (some ((List.replicate 33 ['a', ' ']).flatten))).1
    (by decide)

/-- The function `loadApp` performs no control transfer and no teardown: its trace
never contains CallApp, CleanPageMaps or FreePML4. -/
theorem loadApp_trace_no_teardown (fid : Nat) (file : FileImage) (base : Nat)
    (mapErr : Nat → Err) (copyErr : Err) (cache : List (Nat × AppLoadInfo))
    (allocs : List (Option Nat)) (m : Nat → Nat) :
    Action.callApp ∉ (loadApp fid file base mapErr copyErr cache allocs m).trace ∧
    Action.cleanPageMaps ∉ (loadApp fid file base mapErr copyErr cache allocs m).trace ∧
    Action.freePML4 ∉ (loadApp fid file base mapErr copyErr cache allocs m).trace := by
  unfold loadApp
  repeat' split
  all_goals
    try (by_cases hle : (loadElf base mapErr file.ehdr m).err = Err.success <;> simp [hle])

/-- C3 (amended): when any step before the control transfer fails,
`ExecuteFile` surfaces the error to the caller, but does NOT release the
partial state: neither `CleanPageMaps` nor `FreePML4` is invoked on any
pre-transfer failure path — the fresh address space and any pages already
mapped are leaked, and teardown runs only after a normal child return. -/
theorem c3_executeFile_no_teardown_amended (cmd : List Char) (fa : Option (List Char))
    (env : ExecEnv)
    (h : Action.callApp ∉ (executeFile cmd fa env).2) :
    (executeFile cmd fa env).1 ≠ Err.success ∧
    Action.cleanPageMaps ∉ (executeFile cmd fa env).2 ∧
    Action.freePML4 ∉ (executeFile cmd fa env).2 := by
  obtain ⟨hl1, hl2, hl3⟩ := loadApp_trace_no_teardown env.fid env.file env.base env.mapErr
    env.copyErr env.cache env.allocs env.mem
  unfold executeFile at h ⊢
  dsimp only at h ⊢
  split_ifs at h ⊢ with h1 h2 h3 h4 h5
  · exact ⟨h1, hl2, hl3⟩
  · exact ⟨h2, hl2, hl3⟩
  · refine ⟨h3, ?_, ?_⟩
    · simp only [List.mem_append, List.mem_singleton]
      rintro (hx | hx)
      · exact hl2 hx
      · cases hx
    · simp only [List.mem_append, List.mem_singleton]
      rintro (hx | hx)
      · exact hl3 hx
      · cases hx
  · refine ⟨h4, ?_, ?_⟩
    · simp only [List.mem_append, List.mem_singleton]
      rintro (hx | hx)
      · exact hl2 hx
      · cases hx
    · simp only [List.mem_append, List.mem_singleton]
      rintro (hx | hx)
      · exact hl3 hx
      · cases hx
  · exact absurd (by simp) h
  · exact absurd (by simp) h

/-- C3 counterexample: launching a non-executable image (ELF type 1)
creates the fresh address space (SetupPML4 has run) and then fails in
LoadElf; `ExecuteFile` returns kInvalidFormat with a trace that contains
the address-space creation but neither CleanPageMaps nor FreePML4 — the
partial state is NOT released via the normal-exit teardown path. -/
theorem c3_executeFile_leak_counterexample :
    executeFile ['a'] none
        ⟨0, ⟨true, ⟨1, 0, []⟩⟩, 0, fun _ => Err.success, Err.success, [],
          [some 1, some 2], fun _ => 0, Err.success, Err.success, 0, Err.success,
          Err.success⟩ =
      (Err.invalidFormat, [Action.newPML4, Action.fsLoadFile]) ∧
    Action.freePML4 ∉
      (executeFile ['a'] none
        ⟨0, ⟨true, ⟨1, 0, []⟩⟩, 0, fun _ => Err.success, Err.success, [],
          [some 1, some 2], fun _ => 0, Err.success, Err.success, 0, Err.success,
          Err.success⟩).2 := by
  refine ⟨by decide, by decide⟩

/-- C3 witness: the amended theorem at the same failing launch. -/
theorem c3_executeFile_no_teardown_witness :
    (executeFile ['a'] none
        ⟨0, ⟨true, ⟨1, 0, []⟩⟩, 0, fun _ => Err.success, Err.success, [],
          [some 1, some 2], fun _ => 0, Err.success, Err.success, 0, Err.success,
          Err.success⟩).1 ≠ Err.success ∧
    Action.cleanPageMaps ∉
      (executeFile ['a'] none
        ⟨0, ⟨true, ⟨1, 0, []⟩⟩, 0, fun _ => Err.success, Err.success, [],
          [some 1, some 2], fun _ => 0, Err.success, Err.success, 0, Err.success,
          Err.success⟩).2 ∧
    Action.freePML4 ∉
      (executeFile ['a'] none
        ⟨0, ⟨true, ⟨1, 0, []⟩⟩, 0, fun _ => Err.success, Err.success, [],
          [some 1, some 2], fun _ => 0, Err.success, Err.success, 0, Err.success,
          Err.success⟩).2 :=
  c3_executeFile_no_teardown_amended ['a'] none
    ⟨0, ⟨true, ⟨1, 0, []⟩⟩, 0, fun _ => Err.success, Err.success, [],
      [some 1, some 2], fun _ => 0, Err.success, Err.success, 0, Err.success,
      Err.success⟩ (by decide)

/-- C8 (amended): for every child that returns from CallApp, regardless
of its exit code, `ExecuteFile` clears the task's file descriptors and
file-map table, prints `app exited. ret = <code>`, and invokes
CleanPageMaps; FreePML4 however runs only when CleanPageMaps succeeded —
a CleanPageMaps failure is returned to the caller and skips the
address-space free. -/
theorem c8_executeFile_cleanup_amended (cmd : List Char) (fa : Option (List Char))
    (env : ExecEnv)
    (h : Action.callApp ∈ (executeFile cmd fa env).2) :
    Action.clearFiles ∈ (executeFile cmd fa env).2 ∧
    Action.clearFileMaps ∈ (executeFile cmd fa env).2 ∧
    Action.printExit env.callRet ∈ (executeFile cmd fa env).2 ∧
    Action.cleanPageMaps ∈ (executeFile cmd fa env).2 ∧
    (env.cleanErr = Err.success → Action.freePML4 ∈ (executeFile cmd fa env).2) := by
  obtain ⟨hl1, _, _⟩ := loadApp_trace_no_teardown env.fid env.file env.base env.mapErr
    env.copyErr env.cache env.allocs env.mem
  unfold executeFile at h ⊢
  dsimp only at h ⊢
  split_ifs at h ⊢ with h1 h2 h3 h4 h5
  · exact absurd h hl1
  · exact absurd h hl1
  · simp only [List.mem_append, List.mem_singleton] at h
    rcases h with h | h
    · exact absurd h hl1
    · cases h
  · simp only [List.mem_append, List.mem_singleton] at h
    rcases h with h | h
    · exact absurd h hl1
    · cases h
  · refine ⟨by simp, by simp, by simp, by simp, ?_⟩
    intro hcs
    exact absurd hcs h5
  · refine ⟨by simp, by simp, by simp, by simp, fun _ => by simp⟩

/-- C8 counterexample: a successful launch whose CleanPageMaps fails —
the exit message is printed and CleanPageMaps attempted, but FreePML4
never runs and the CleanPageMaps error is returned: "freeing the address
space executes unconditionally after the child returns" is false. -/
theorem c8_executeFile_free_counterexample :
    executeFile ['a'] none
        ⟨0, ⟨true, ⟨2, 0xffff800000000000,
            [⟨1, 0x40, 0xffff800000000000, 0xffff800000000000, 0, 0⟩]⟩⟩, 0,
          fun _ => Err.success, Err.success, [], [some 1, some 2], fun _ => 0,
          Err.success, Err.success, 7, Err.noEnoughMemory, Err.success⟩ =
      (Err.noEnoughMemory,
        [Action.newPML4, Action.fsLoadFile, Action.newPML4, Action.copyPageMaps,
          Action.mapArgs, Action.mapStack, Action.pushFd, Action.pushFd, Action.pushFd,
          Action.callApp, Action.clearFiles, Action.clearFileMaps, Action.printExit 7,
          Action.cleanPageMaps]) ∧
    Action.freePML4 ∉
      (executeFile ['a'] none
        ⟨0, ⟨true, ⟨2, 0xffff800000000000,
            [⟨1, 0x40, 0xffff800000000000, 0xffff800000000000, 0, 0⟩]⟩⟩, 0,
          fun _ => Err.success, Err.success, [], [some 1, some 2], fun _ => 0,
          Err.success, Err.success, 7, Err.noEnoughMemory, Err.success⟩).2 := by
  refine ⟨by decide, by decide⟩

/-- C8 witness: the amended theorem at a successful launch whose
teardown succeeds, exit code 7. -/
theorem c8_executeFile_cleanup_witness :
    Action.clearFiles ∈
      (executeFile ['a'] none
        ⟨0, ⟨true, ⟨2, 0xffff800000000000,
            [⟨1, 0x40, 0xffff800000000000, 0xffff800000000000, 0, 0⟩]⟩⟩, 0,
          fun _ => Err.success, Err.success, [], [some 1, some 2], fun _ => 0,
          Err.success, Err.success, 7, Err.success, Err.success⟩).2 ∧
    Action.clearFileMaps ∈
      (executeFile ['a'] none
        ⟨0, ⟨true, ⟨2, 0xffff800000000000,
            [⟨1, 0x40, 0xffff800000000000, 0xffff800000000000, 0, 0⟩]⟩⟩, 0,
          fun _ => Err.success, Err.success, [], [some 1, some 2], fun _ => 0,
          Err.success, Err.success, 7, Err.success, Err.success⟩).2 ∧
    Action.printExit 7 ∈
      (executeFile ['a'] none
        ⟨0, ⟨true, ⟨2, 0xffff800000000000,
            [⟨1, 0x40, 0xffff800000000000, 0xffff800000000000, 0, 0⟩]⟩⟩, 0,
          fun _ => Err.success, Err.success, [], [some 1, some 2], fun _ => 0,
          Err.success, Err.success, 7, Err.success, Err.success⟩).2 ∧
    Action.cleanPageMaps ∈
      (executeFile ['a'] none
        ⟨0, ⟨true, ⟨2, 0xffff800000000000,
            [⟨1, 0x40, 0xffff800000000000, 0xffff800000000000, 0, 0⟩]⟩⟩, 0,
          fun _ => Err.success, Err.success, [], [some 1, some 2], fun _ => 0,
          Err.success, Err.success, 7, Err.success, Err.success⟩).2 ∧
    (Err.success = Err.success → Action.freePML4 ∈
      (executeFile ['a'] none
        ⟨0, ⟨true, ⟨2, 0xffff800000000000,
            [⟨1, 0x40, 0xffff800000000000, 0xffff800000000000, 0, 0⟩]⟩⟩, 0,
          fun _ => Err.success, Err.success, [], [some 1, some 2], fun _ => 0,
          Err.success, Err.success, 7, Err.success, Err.success⟩).2) :=
  c8_executeFile_cleanup_amended ['a'] none
    ⟨0, ⟨true, ⟨2, 0xffff800000000000,
        [⟨1, 0x40, 0xffff800000000000, 0xffff800000000000, 0, 0⟩]⟩⟩, 0,
      fun _ => Err.success, Err.success, [], [some 1, some 2], fun _ => 0,
      Err.success, Err.success, 7, Err.success, Err.success⟩ (by decide)

/-- On a cache hit with a successful allocation, `LoadApp` duplicates the
cached program's mapping range into the fresh root and returns the cached
layout (entry point and high-water mark) without reading the
filesystem. -/
theorem loadApp_hit (fid : Nat) (file : FileImage) (base : Nat) (mapErr : Nat → Err)
    (ce : Err) (cache : List (Nat × AppLoadInfo)) (allocs : List (Option Nat))
    (m : Nat → Nat) (p : Nat) (rest : List (Option Nat)) (info0 : AppLoadInfo)
    (ha : allocs = some p :: rest) (hc : lookupCache cache fid = some info0) :
    loadApp fid file base mapErr ce cache allocs m =
      ⟨⟨info0.vaddr_end, info0.entry, p⟩, ce, cache, rest, m,
        [Action.newPML4, Action.copyPageMaps]⟩ := by
  subst ha
  unfold loadApp
  simp [setupPML4M, hc]

/-- A successful first launch on a cache without the file leaves a cache
entry for the file whose recorded high-water mark and entry point equal
the ones the call returned. -/
theorem loadApp_miss_success (fid : Nat) (file : FileImage) (base : Nat)
    (mapErr : Nat → Err) (ce : Err) (cache : List (Nat × AppLoadInfo))
    (allocs : List (Option Nat)) (m : Nat → Nat)
    (h0 : lookupCache cache fid = none)
    (h1 : (loadApp fid file base mapErr ce cache allocs m).err = Err.success) :
    ∃ t, lookupCache (loadApp fid file base mapErr ce cache allocs m).cache fid =
      some ⟨(loadApp fid file base mapErr ce cache allocs m).info.vaddr_end,
        (loadApp fid file base mapErr ce cache allocs m).info.entry, t⟩ := by
  obtain ⟨mg, eh⟩ := file
  cases allocs with
  | nil => simp [loadApp, setupPML4M] at h1
  | cons a al =>
    cases a with
    | none => simp [loadApp, setupPML4M] at h1
    | some temp =>
      unfold loadApp at h1 ⊢
      simp only [setupPML4M] at h1 ⊢
      rw [h0] at h1 ⊢
      cases mg with
      | false => simp at h1
      | true =>
        simp only [Bool.not_true, Bool.false_eq_true, if_false] at h1 ⊢
        by_cases hle : (loadElf base mapErr eh m).err = Err.success
        · cases al with
          | nil => simp [setupPML4M, hle] at h1
          | cons a2 al2 =>
            cases a2 with
            | none => simp [setupPML4M, hle] at h1
            | some p2 =>
              refine ⟨temp, ?_⟩
              simp [setupPML4M, hle, lookupCache]
        · simp [hle] at h1

/-- C5: a file launched twice (the second launch from the cache state the
first one left, with a fresh allocation available) takes the cache-hit
path on the second `LoadApp`: the returned entry point and high-water
mark equal the first launch's, the trace is exactly
[SetupPML4, CopyPageMaps], and no filesystem read (fat::LoadFile)
occurs. -/
theorem c5_loadApp_cache_hit (fid : Nat) (file : FileImage) (base : Nat)
    (mapErr : Nat → Err) (ce1 ce2 : Err) (cache0 : List (Nat × AppLoadInfo))
    (allocs : List (Option Nat)) (m m2 : Nat → Nat) (p : Nat) (rest : List (Option Nat))
    (h0 : lookupCache cache0 fid = none)
    (h1 : (loadApp fid file base mapErr ce1 cache0 allocs m).err = Err.success)
    (h2 : (loadApp fid file base mapErr ce1 cache0 allocs m).allocs = some p :: rest) :
    (loadApp fid file base mapErr ce2
        (loadApp fid file base mapErr ce1 cache0 allocs m).cache
        (loadApp fid file base mapErr ce1 cache0 allocs m).allocs m2).info.entry =
      (loadApp fid file base mapErr ce1 cache0 allocs m).info.entry ∧
    (loadApp fid file base mapErr ce2
        (loadApp fid file base mapErr ce1 cache0 allocs m).cache
        (loadApp fid file base mapErr ce1 cache0 allocs m).allocs m2).info.vaddr_end =
      (loadApp fid file base mapErr ce1 cache0 allocs m).info.vaddr_end ∧
    (loadApp fid file base mapErr ce2
        (loadApp fid file base mapErr ce1 cache0 allocs m).cache
        (loadApp fid file base mapErr ce1 cache0 allocs m).allocs m2).trace =
      [Action.newPML4, Action.copyPageMaps] ∧
    Action.fsLoadFile ∉
      (loadApp fid file base mapErr ce2
        (loadApp fid file base mapErr ce1 cache0 allocs m).cache
        (loadApp fid file base mapErr ce1 cache0 allocs m).allocs m2).trace := by
  obtain ⟨t, hc⟩ := loadApp_miss_success fid file base mapErr ce1 cache0 allocs m h0 h1
  rw [loadApp_hit fid file base mapErr ce2
    (loadApp fid file base mapErr ce1 cache0 allocs m).cache
    (loadApp fid file base mapErr ce1 cache0 allocs m).allocs m2 p rest _ h2 hc]
  exact ⟨rfl, rfl, rfl, by simp⟩

/-- C5 witness: the cache-hit theorem at a concrete valid executable,
with a three-entry allocation stream. -/
theorem c5_loadApp_cache_hit_witness :
    (loadApp 0 ⟨true, ⟨2, 0xffff800000000000,
          [⟨1, 0x40, 0xffff800000000000, 0xffff800000000000, 0, 0⟩]⟩⟩ 0
        (fun _ => Err.success) Err.success
        (loadApp 0 ⟨true, ⟨2, 0xffff800000000000,
            [⟨1, 0x40, 0xffff800000000000, 0xffff800000000000, 0, 0⟩]⟩⟩ 0
          (fun _ => Err.success) Err.success [] [some 1, some 2, some 3]
          (fun _ => 0)).cache
        (loadApp 0 ⟨true, ⟨2, 0xffff800000000000,
            [⟨1, 0x40, 0xffff800000000000, 0xffff800000000000, 0, 0⟩]⟩⟩ 0
          (fun _ => Err.success) Err.success [] [some 1, some 2, some 3]
          (fun _ => 0)).allocs (fun _ => 0)).info.entry =
      (loadApp 0 ⟨true, ⟨2, 0xffff800000000000,
          [⟨1, 0x40, 0xffff800000000000, 0xffff800000000000, 0, 0⟩]⟩⟩ 0
        (fun _ => Err.success) Err.success [] [some 1, some 2, some 3]
        (fun _ => 0)).info.entry ∧
    (loadApp 0 ⟨true, ⟨2, 0xffff800000000000,
          [⟨1, 0x40, 0xffff800000000000, 0xffff800000000000, 0, 0⟩]⟩⟩ 0
        (fun _ => Err.success) Err.success
        (loadApp 0 ⟨true, ⟨2, 0xffff800000000000,
            [⟨1, 0x40, 0xffff800000000000, 0xffff800000000000, 0, 0⟩]⟩⟩ 0
          (fun _ => Err.success) Err.success [] [some 1, some 2, some 3]
          (fun _ => 0)).cache
        (loadApp 0 ⟨true, ⟨2, 0xffff800000000000,
            [⟨1, 0x40, 0xffff800000000000, 0xffff800000000000, 0, 0⟩]⟩⟩ 0
          (fun _ => Err.success) Err.success [] [some 1, some 2, some 3]
          (fun _ => 0)).allocs (fun _ => 0)).info.vaddr_end =
      (loadApp 0 ⟨true, ⟨2, 0xffff800000000000,
          [⟨1, 0x40, 0xffff800000000000, 0xffff800000000000, 0, 0⟩]⟩⟩ 0
        (fun _ => Err.success) Err.success [] [some 1, some 2, some 3]
        (fun _ => 0)).info.vaddr_end ∧
    (loadApp 0 ⟨true, ⟨2, 0xffff800000000000,
          [⟨1, 0x40, 0xffff800000000000, 0xffff800000000000, 0, 0⟩]⟩⟩ 0
        (fun _ => Err.success) Err.success
        (loadApp 0 ⟨true, ⟨2, 0xffff800000000000,
            [⟨1, 0x40, 0xffff800000000000, 0xffff800000000000, 0, 0⟩]⟩⟩ 0
          (fun _ => Err.success) Err.success [] [some 1, some 2, some 3]
          (fun _ => 0)).cache
        (loadApp 0 ⟨true, ⟨2, 0xffff800000000000,
            [⟨1, 0x40, 0xffff800000000000, 0xffff800000000000, 0, 0⟩]⟩⟩ 0
          (fun _ => Err.success) Err.success [] [some 1, some 2, some 3]
          (fun _ => 0)).allocs (fun _ => 0)).trace =
      [Action.newPML4, Action.copyPageMaps] ∧
    Action.fsLoadFile ∉
      (loadApp 0 ⟨true, ⟨2, 0xffff800000000000,
          [⟨1, 0x40, 0xffff800000000000, 0xffff800000000000, 0, 0⟩]⟩⟩ 0
        (fun _ => Err.success) Err.success
        (loadApp 0 ⟨true, ⟨2, 0xffff800000000000,
            [⟨1, 0x40, 0xffff800000000000, 0xffff800000000000, 0, 0⟩]⟩⟩ 0
          (fun _ => Err.success) Err.success [] [some 1, some 2, some 3]
          (fun _ => 0)).cache
        (loadApp 0 ⟨true, ⟨2, 0xffff800000000000,
            [⟨1, 0x40, 0xffff800000000000, 0xffff800000000000, 0, 0⟩]⟩⟩ 0
          (fun _ => Err.success) Err.success [] [some 1, some 2, some 3]
          (fun _ => 0)).allocs (fun _ => 0)).trace :=
  c5_loadApp_cache_hit 0 ⟨true, ⟨2, 0xffff800000000000,
      [⟨1, 0x40, 0xffff800000000000, 0xffff800000000000, 0, 0⟩]⟩⟩ 0
    (fun _ => Err.success) Err.success Err.success [] [some 1, some 2, some 3]
    (fun _ => 0) (fun _ => 0) 3 []
    (by decide) (by decide) (by decide)

end Mikan
